import Mathlib

/-!
Verification of the ledger-backed resource state engine of this repository.

Shallow embedding of the relevant source code:
- `src/002_Inventory_Management_System/app.py`: the `items` / `transactions`
  tables and the `add_item`, `add_transaction`, `edit_item` handlers, plus
  the dashboard's low-stock query (namespace `Inventory`);
- `src/004_Library_management_System/app.py`: `DatabaseManager.add_borrow_record`
  and `DatabaseManager.return_book` (namespace `Library`);
- `src/001_Task_Management_Desktop_app/app.py`: `Task.is_overdue` and
  `TaskManager.get_overdue_tasks` (namespace `TaskApp`);
- `src/003_Hotel_Booking_System/app.py`: the `cancel_booking` handler
  (namespace `Hotel`).

SQLite rows become Lean structures; a database becomes explicit lists of rows
threaded through each operation; handlers that commit become functions from a
database to a result together with the new database, and any path that raises
before `commit` (or redirects without writing) returns the database unchanged.
`REAL`-typed money columns are modelled as `Int`: no verified claim performs
fractional arithmetic on them.  The late-fee computation has no implementation
under `src/` (its only callers are empty stubs), so it is modelled from the
spec; see `computeLateFee`.
-/

/-- A calendar date, as carried by Python's `datetime.date`: a year, a month
`1..12` and a day `1..31`. -/
structure Date where
  year : Int
  month : Int
  day : Int
deriving DecidableEq

/-- Day number of a civil date (days since 1970-01-01, Hinnant's
days-from-civil algorithm).  Python's `date` subtraction `(a - b).days` equals
`a.toDays - b.toDays`, and Python's date comparison agrees with comparison of
day numbers, so calendar order is taken to be the order of `toDays` throughout.
Lean's `Int` division `/` floors for positive divisors, which is what the
algorithm needs. -/
def Date.toDays (d : Date) : Int :=
  let y : Int := if d.month ≤ 2 then d.year - 1 else d.year
  let era : Int := y / 400
  let yoe : Int := y - era * 400
  let mp : Int := (d.month + 9) % 12
  let doy : Int := (153 * mp + 2) / 5 + d.day - 1
  let doe : Int := yoe * 365 + yoe / 4 - yoe / 100 + doy
  era * 146097 + doe - 719468

namespace Inventory

/-- A row of the `items` table (`src/002_Inventory_Management_System/app.py`,
`init_db`).  `unit_price` is `REAL` in the schema, modelled as `Int`; the two
timestamp columns are carried as opaque strings. -/
structure Item where
  id : Int
  name : String
  description : String
  quantity : Int
  unit_price : Int
  category : String
  minimum_stock : Int
  created_at : String
  updated_at : String
deriving DecidableEq

/-- A row of the `transactions` table.  The `type` column carries the strings
`"in"` or `"out"` (enforced by the schema's CHECK constraint); `reference_no`
and `notes` are free text, with SQL NULL modelled as `Option`. -/
structure Movement where
  id : Int
  item_id : Int
  type : String
  quantity : Int
  unit_price : Int
  total_amount : Int
  reference_no : Option String
  notes : Option String
deriving DecidableEq

/-- The inventory database: the two tables plus the AUTOINCREMENT counters of
their integer primary keys. -/
structure InvDb where
  items : List Item
  movements : List Movement
  nextItemId : Int
  nextMovementId : Int
deriving DecidableEq

/-- A freshly initialised database: both tables empty, AUTOINCREMENT at 1. -/
def emptyDb : InvDb := ⟨[], [], 1, 1⟩

/-- The `add_item` POST handler (`app.py` lines 192-215): inserts the item
with the submitted quantity, and — only when that quantity is `> 0` — records
an `'in'` transaction for the initial stock (`notes = 'Initial stock'`, no
`reference_no`).  `now` stands for `CURRENT_TIMESTAMP`. -/
def add_item (db : InvDb) (name description : String) (quantity unit_price : Int)
    (category : String) (minimum_stock : Int) (now : String) : InvDb :=
  let item : Item :=
    ⟨db.nextItemId, name, description, quantity, unit_price, category, minimum_stock, now, now⟩
  let movements :=
    if quantity > 0 then
      db.movements ++
        [⟨db.nextMovementId, db.nextItemId, "in", quantity, unit_price,
          quantity * unit_price, none, some "Initial stock"⟩]
    else db.movements
  { items := db.items ++ [item]
    movements := movements
    nextItemId := db.nextItemId + 1
    nextMovementId := if quantity > 0 then db.nextMovementId + 1 else db.nextMovementId }

/-- Outcome of the `add_transaction` POST handler.  `dbError` covers the paths
that raise an uncaught exception before `commit` — a missing item (indexing the
`None` from `fetchone()`) or a `type` outside `'in'`/`'out'` (the schema CHECK
fires on INSERT) — so the connection closes without committing and the store
is unchanged. -/
inductive TransResult
  | ok
  | insufficientStock
  | dbError
deriving DecidableEq

/-- The `add_transaction` POST handler (`app.py` lines 262-292).  It loads the
item's quantity, rejects an `'out'` movement larger than it, otherwise updates
the item's quantity (`+` for `'in'`, `-` otherwise) and appends the movement
row, committing both together.  There is no positivity check on `quantity`. -/
def add_transaction (db : InvDb) (item_id : Int) (type : String)
    (quantity unit_price : Int) (reference_no notes : String) : TransResult × InvDb :=
  match db.items.find? (fun it => it.id == item_id) with
  | none => (.dbError, db)
  | some item =>
    if type = "out" ∧ quantity > item.quantity then
      (.insufficientStock, db)
    else if type ≠ "in" ∧ type ≠ "out" then
      (.dbError, db)
    else
      let new_quantity := if type = "in" then item.quantity + quantity
                          else item.quantity - quantity
      (.ok,
        { db with
          items := db.items.map (fun it =>
            if it.id == item_id then { it with quantity := new_quantity } else it)
          movements := db.movements ++
            [⟨db.nextMovementId, item_id, type, quantity, unit_price,
              quantity * unit_price, some reference_no, some notes⟩]
          nextMovementId := db.nextMovementId + 1 })

/-- The `edit_item` POST handler (`app.py` lines 221-245): a single UPDATE of
`name`, `description`, `category`, `minimum_stock` and `updated_at` on the row
with the given id.  A nonexistent id updates no row. -/
def edit_item (db : InvDb) (id : Int) (name description category : String)
    (minimum_stock : Int) (now : String) : InvDb :=
  { db with
    items := db.items.map (fun it =>
      if it.id == id then
        { it with name := name, description := description, category := category,
                  minimum_stock := minimum_stock, updated_at := now }
      else it) }

/-- Sum of the amounts of the committed `'in'` movements against an item. -/
def inSum (ms : List Movement) (iid : Int) : Int :=
  ((ms.filter (fun m => m.item_id == iid && m.type == "in")).map Movement.quantity).sum

/-- Sum of the amounts of the committed `'out'` movements against an item. -/
def outSum (ms : List Movement) (iid : Int) : Int :=
  ((ms.filter (fun m => m.item_id == iid && m.type == "out")).map Movement.quantity).sum

/-- One committed user action against the inventory store. -/
inductive Op
  | addItem (name description : String) (quantity unit_price : Int)
      (category : String) (minimum_stock : Int) (now : String)
  | addMovement (item_id : Int) (type : String) (quantity unit_price : Int)
      (reference_no notes : String)
  | editItem (id : Int) (name description category : String)
      (minimum_stock : Int) (now : String)

/-- Run one action against the store (an action whose handler rejects or
raises leaves the store as it was). -/
def step (db : InvDb) : Op → InvDb
  | .addItem n d q p c m now => add_item db n d q p c m now
  | .addMovement i t q p r no => (add_transaction db i t q p r no).2
  | .editItem i n d c m now => edit_item db i n d c m now

/-- Run a whole sequence of actions from a freshly initialised database. -/
def run (ops : List Op) : InvDb := List.foldl step emptyDb ops

/-- An action is benign when, if it is an `add_item`, the submitted initial
quantity is non-negative (the handler parses the form field with `int(...)`
and never checks its sign). -/
def nonNegativeInit : Op → Bool
  | .addItem _ _ q _ _ _ _ => 0 ≤ q
  | _ => true

/-- The dashboard's low-stock predicate
(`SELECT ... WHERE quantity <= minimum_stock`, `app.py` lines 156-158). -/
def isLowStock (it : Item) : Bool := it.quantity ≤ it.minimum_stock

/-- The dashboard's low-stock listing (`app.py` lines 168-173):
`SELECT * FROM items WHERE quantity <= minimum_stock ORDER BY quantity ASC
LIMIT 5`.  The ORDER BY is embedded as a sort by `quantity`. -/
def low_stock_items (items : List Item) : List Item :=
  ((items.filter isLowStock).insertionSort (fun a b => a.quantity ≤ b.quantity)).take 5

end Inventory

namespace Library

/-- A row of the `books` table (`src/004_Library_management_System/app.py`,
`setup_database`).  `status` carries the `BookStatus` enum values as the text
strings the code stores (`"Available"`, `"Borrowed"`, ...).  The inert
bibliographic columns that no verified operation reads or writes are left
out. -/
structure Book where
  id : String
  title : String
  isbn : String
  status : String
deriving DecidableEq

/-- A row of the `users` table; `borrowed_books` is the running count the
circulation operations increment and decrement. -/
structure Member where
  id : String
  name : String
  borrowed_books : Int
deriving DecidableEq

/-- The `BorrowRecord` dataclass (`app.py` lines 81-92), in its field order;
`late_fee` is `REAL`, modelled as `Int`. -/
structure BorrowRecord where
  id : String
  book_id : String
  user_id : String
  borrow_date : String
  due_date : String
  status : String
  return_date : Option String
  extended_date : Option String
  late_fee : Int
  notes : Option String
deriving DecidableEq

/-- The library database: the three tables the circulation operations touch. -/
structure LibraryDb where
  books : List Book
  users : List Member
  records : List BorrowRecord
deriving DecidableEq

/-- A value bound to one `?` placeholder of a SQL statement. -/
inductive SqlValue
  | text (s : String)
  | num (i : Int)
  | null
deriving DecidableEq

/-- The ten columns of the `borrow_records` table, in schema order
(`setup_database`, `app.py` lines 170-183). -/
def borrowRecordsColumns : List String :=
  ["id", "book_id", "user_id", "borrow_date", "due_date",
   "return_date", "extended_date", "late_fee", "status", "notes"]

/-- The values `add_borrow_record` binds in its
`INSERT INTO borrow_records VALUES (?, ?, ?, ?, ?, ?, ?, ?)` (`app.py` lines
267-269): eight values — `extended_date` and `notes` are not supplied. -/
def borrowInsertValues (r : BorrowRecord) : List SqlValue :=
  [.text r.id, .text r.book_id, .text r.user_id, .text r.borrow_date,
   .text r.due_date,
   (match r.return_date with | some s => .text s | none => .null),
   .num r.late_fee, .text r.status]

/-- `DatabaseManager.add_borrow_record` (`app.py` lines 262-282).  An
unqualified `INSERT INTO borrow_records VALUES (...)` must bind exactly as
many values as the table has columns; when the counts differ SQLite rejects
the statement, the `except sqlite3.Error` branch returns `False`, and the
connection closes without committing, so the store is unchanged.  When the
INSERT is accepted the function records the row, sets the book's status to
`"Borrowed"` and increments the user's `borrowed_books` — with no check of
the book's previous status — and commits, returning `True`. -/
def add_borrow_record (db : LibraryDb) (record : BorrowRecord) : Bool × LibraryDb :=
  if (borrowInsertValues record).length = borrowRecordsColumns.length then
    (true,
      { books := db.books.map (fun b =>
          if b.id == record.book_id then { b with status := "Borrowed" } else b)
        users := db.users.map (fun u =>
          if u.id == record.user_id then { u with borrowed_books := u.borrowed_books + 1 } else u)
        records := db.records ++ [record] })
  else
    (false, db)

/-- `DatabaseManager.return_book` (`app.py` lines 284-313).  It loads
`book_id, user_id` of the named record — when `fetchone()` is `None` the
tuple unpacking raises and nothing is committed (`none`).  Otherwise,
without any check of the record's current status, it overwrites the record's
`return_date`, `late_fee` and `status` (to `'Returned'`), sets the book's
status to `"Available"`, decrements the user's `borrowed_books`, commits and
returns `True` (`some` of the new store). -/
def return_book (db : LibraryDb) (record_id return_date : String) (late_fee : Int) :
    Option LibraryDb :=
  match db.records.find? (fun r => r.id == record_id) with
  | none => none
  | some rec =>
    some
      { books := db.books.map (fun b =>
          if b.id == rec.book_id then { b with status := "Available" } else b)
        users := db.users.map (fun u =>
          if u.id == rec.user_id then { u with borrowed_books := u.borrowed_books - 1 } else u)
        records := db.records.map (fun r =>
          if r.id == record_id then
            { r with return_date := some return_date, late_fee := late_fee,
                     status := "Returned" }
          else r) }

/-- Modelled from the spec: `computeLateFee(dueDate, returnDate, dailyRate)`.
No late-fee computation exists under `src/` — `DatabaseManager.return_book`
takes the fee as an already-computed argument and its only callers
(`LibraryApp.return_book`, `manage_late_fees`) are empty stubs.  The spec
defines it as `max(0, daysBetween(dueDate, returnDate)) * dailyRate`, a pure
calendar-day difference with no time-of-day component. -/
def computeLateFee (dueDate returnDate : Date) (dailyRate : Int) : Int :=
  max 0 (returnDate.toDays - dueDate.toDays) * dailyRate

/-- A loan record that has already been closed: status `"Returned"`, a
recorded return date and a fee of 5. -/
def closedRec : BorrowRecord :=
  ⟨"L1", "B1", "U1", "2024-01-01", "2024-01-10", "Returned",
   some "2024-01-08", none, 5, none⟩

/-- A store holding the already-closed loan `closedRec`. -/
def closedDb : LibraryDb :=
  { books := [⟨"B1", "Dune", "9780441013593", "Available"⟩]
    users := [⟨"U1", "Ada", 0⟩]
    records := [closedRec] }

end Library

namespace TaskApp

/-- The `Task` dataclass (`src/001_Task_Management_Desktop_app/app.py` lines
31-41).  The source stores `due_date` as an ISO string and parses it inside
`is_overdue`; the embedding carries the parsed calendar date.  `status`
carries the `Status` enum values as the stored strings (`"Pending"`,
`"In Progress"`, `"Completed"`). -/
structure Task where
  id : String
  title : String
  description : String
  due_date : Date
  priority : String
  status : String
  created_date : String
  updated_date : String
  category : String
deriving DecidableEq

/-- `Task.is_overdue` (`app.py` lines 50-57): `False` for a completed task,
otherwise whether the due date is strictly before today.  The source reads
`date.today()` from the clock; the embedding takes `today` as an argument. -/
def Task.is_overdue (t : Task) (today : Date) : Bool :=
  if t.status == "Completed" then false
  else t.due_date.toDays < today.toDays

/-- `TaskManager.get_overdue_tasks` (`app.py` lines 99-100): the tasks whose
`is_overdue` holds, in list order. -/
def get_overdue_tasks (tasks : List Task) (today : Date) : List Task :=
  tasks.filter (fun t => t.is_overdue today)

end TaskApp

namespace Hotel

/-- A row of the `rooms` table (`src/003_Hotel_Booking_System/app.py`,
`init_db`).  `status` is one of `'available'`, `'occupied'`,
`'maintenance'`. -/
structure Room where
  id : Int
  room_number : String
  status : String
deriving DecidableEq

/-- A row of the `bookings` table; `status` is one of `'confirmed'`,
`'cancelled'`, `'completed'`. -/
structure Booking where
  id : Int
  user_id : Int
  room_id : Int
  status : String
deriving DecidableEq

/-- The hotel database: the two tables `cancel_booking` touches. -/
structure HotelDb where
  rooms : List Room
  bookings : List Booking
deriving DecidableEq

/-- Outcome flashed by `cancel_booking`. -/
inductive CancelResult
  | cancelled
  | notFound
deriving DecidableEq

/-- The `cancel_booking` handler (`app.py` lines 219-238).  It first selects
the booking with the given id *and* the session user's id; only when that
lookup succeeds does it mark the booking cancelled, mark the booking's room
available and commit — otherwise it flashes a not-found message and writes
nothing. -/
def cancel_booking (db : HotelDb) (user_id booking_id : Int) : CancelResult × HotelDb :=
  match db.bookings.find? (fun b => b.id == booking_id && b.user_id == user_id) with
  | none => (.notFound, db)
  | some booking =>
    (.cancelled,
      { rooms := db.rooms.map (fun r =>
          if r.id == booking.room_id then { r with status := "available" } else r)
        bookings := db.bookings.map (fun b =>
          if b.id == booking_id then { b with status := "cancelled" } else b) })

/-- A store with one occupied room and one confirmed booking owned by user 7. -/
def hotelDb1 : HotelDb :=
  { rooms := [⟨1, "101", "occupied"⟩]
    bookings := [⟨1, 7, 1, "confirmed"⟩] }

end Hotel

namespace Inventory

/-- A short committed history: an item added with initial stock 5, then an
`'out'` movement of 2. -/
def demoOps : List Op :=
  [.addItem "widget" "steel widget" 5 3 "hardware" 10 "t0",
   .addMovement 1 "out" 2 3 "PO-7" ""]

/-- The single item row `run demoOps` leaves in the store (quantity 3). -/
def demoItem : Item := ⟨1, "widget", "steel widget", 3, 3, "hardware", 10, "t0", "t0"⟩

/-- The store produced by `demoOps`. -/
def invDb1 : InvDb := run demoOps

/-- A history consisting of one `add_item` whose submitted initial quantity
is negative — the handler never checks the sign of the parsed form field. -/
def negOps : List Op := [.addItem "scrap" "" (-1) 2 "misc" 10 "t0"]

/-- The item row `run negOps` leaves in the store: quantity `-1`, while the
`transactions` table stays empty (the initial-stock movement is only recorded
when the quantity is `> 0`). -/
def negItem : Item := ⟨1, "scrap", "", -1, 2, "misc", 10, "t0", "t0"⟩

/-- Six items that are all low on stock (quantities 0..5, each below the
minimum of 10), with distinct ids. -/
def sixLowItems : List Item :=
  [⟨1, "a", "", 0, 1, "c", 10, "", ""⟩, ⟨2, "b", "", 1, 1, "c", 10, "", ""⟩,
   ⟨3, "d", "", 2, 1, "c", 10, "", ""⟩, ⟨4, "e", "", 3, 1, "c", 10, "", ""⟩,
   ⟨5, "f", "", 4, 1, "c", 10, "", ""⟩, ⟨6, "g", "", 5, 1, "c", 10, "", ""⟩]

/-- The low-stock item of `sixLowItems` with the largest quantity. -/
def lowItemF : Item := ⟨6, "g", "", 5, 1, "c", 10, "", ""⟩

/-- A single low-stock item, and the one-element store holding it. -/
def lowItemA : Item := ⟨1, "a", "", 0, 1, "c", 10, "", ""⟩

/-- One-element store holding `lowItemA`. -/
def lowList1 : List Item := [lowItemA]

/-- The fields of an item that `edit_item` must never touch: id, quantity,
unit price and creation timestamp. -/
def itemFrame (it : Item) : Int × Int × Int × String :=
  (it.id, it.quantity, it.unit_price, it.created_at)

/-- The live-state/ledger agreement invariant of the spec: every item's
stored quantity is the net sum of the committed movements against it. -/
def ledgerMatches (db : InvDb) : Prop :=
  ∀ it ∈ db.items, it.quantity = inSum db.movements it.id - outSum db.movements it.id

/-- Bookkeeping invariant of the AUTOINCREMENT key: every item id and every
movement's item reference is below the next fresh id. -/
def idsFresh (db : InvDb) : Prop :=
  (∀ it ∈ db.items, it.id < db.nextItemId) ∧
  (∀ m ∈ db.movements, m.item_id < db.nextItemId)

end Inventory

namespace TaskApp

/-- A completed task whose due date has long passed. -/
def doneTask : Task :=
  ⟨"T2", "file taxes", "", ⟨2024, 5, 30⟩, "High", "Completed", "c", "u", "General"⟩

end TaskApp

/-! ## Theorems -/

/-- C2: for every resource and every `recordMovement` call with direction Out
and amount strictly greater than the resource's current quantity, the
operation rejects with InsufficientStock and the resource's quantity is
unchanged (no Movement is appended): `add_transaction` returns the
insufficient-stock outcome and the whole store unchanged. -/
theorem C2_out_insufficient_rejected (db : Inventory.InvDb)
    (item_id quantity unit_price : Int) (reference_no notes : String)
    (item : Inventory.Item)
    (hfind : db.items.find? (fun it => it.id == item_id) = some item)
    (hq : quantity > item.quantity) :
    Inventory.add_transaction db item_id "out" quantity unit_price reference_no notes
      = (Inventory.TransResult.insufficientStock, db) := by
  simp [Inventory.add_transaction, hfind, hq]

/-- Witness for C2 at a concrete store: item 1 holds 3 units and an `'out'`
movement of 9 is rejected, leaving the store untouched. -/
theorem C2_out_insufficient_rejected_witness :
    Inventory.add_transaction Inventory.invDb1 1 "out" 9 3 "" ""
      = (Inventory.TransResult.insufficientStock, Inventory.invDb1) :=
  C2_out_insufficient_rejected Inventory.invDb1 1 9 3 "" "" Inventory.demoItem
    (by decide) (by decide)

/-- C4 (code bug): `add_borrow_record` can never succeed — its INSERT binds
eight values against the ten columns of `borrow_records`, so SQLite rejects
the statement, the function returns `False` and nothing is committed, for
every store and every record (in particular also when the book is
`"Available"`, where the claim requires success).  No availability check is
performed anywhere in the function either. -/
theorem C4_add_borrow_record_always_fails (db : Library.LibraryDb)
    (record : Library.BorrowRecord) :
    Library.add_borrow_record db record = (false, db) := rfl

/-- C6: the late fee is `max(0, daysBetween(dueDate, returnDate)) * dailyRate`,
zero whenever the return date is on or before the due date, and the three
concrete examples of the spec hold (due 2024-01-10: returning the same day at
rate 1 gives 0, on 2024-01-13 at rate 2 gives 6, on 2024-01-09 at rate 2
gives 0). -/
theorem C6_computeLateFee_spec (dueDate returnDate : Date) (dailyRate : Int) :
    Library.computeLateFee dueDate returnDate dailyRate
      = max 0 (returnDate.toDays - dueDate.toDays) * dailyRate ∧
    (returnDate.toDays ≤ dueDate.toDays →
      Library.computeLateFee dueDate returnDate dailyRate = 0) ∧
    Library.computeLateFee ⟨2024, 1, 10⟩ ⟨2024, 1, 10⟩ 1 = 0 ∧
    Library.computeLateFee ⟨2024, 1, 10⟩ ⟨2024, 1, 13⟩ 2 = 6 ∧
    Library.computeLateFee ⟨2024, 1, 10⟩ ⟨2024, 1, 9⟩ 2 = 0 := by
  refine ⟨rfl, ?_, by decide, by decide, by decide⟩
  intro h
  have hd : returnDate.toDays - dueDate.toDays ≤ 0 := by omega
  simp [Library.computeLateFee, max_eq_left hd]

/-- Witness for C6: an on-time return (2024-01-09 against due 2024-01-10)
satisfies the order hypothesis and accrues a zero fee. -/
theorem C6_computeLateFee_spec_witness :
    Date.toDays ⟨2024, 1, 9⟩ ≤ Date.toDays ⟨2024, 1, 10⟩ ∧
    Library.computeLateFee ⟨2024, 1, 10⟩ ⟨2024, 1, 9⟩ 2 = 0 :=
  ⟨by decide, (C6_computeLateFee_spec ⟨2024, 1, 10⟩ ⟨2024, 1, 9⟩ 2).2.1 (by decide)⟩

/-- C7: `is_overdue` is true exactly when the task has no terminal completion
(status is not `"Completed"`) and its due date is strictly before today; a
task due today is not overdue, a completed task is never overdue, and
`get_overdue_tasks` returns exactly the tasks for which `is_overdue` holds. -/
theorem C7_is_overdue_iff (t : TaskApp.Task) (today : Date)
    (tasks : List TaskApp.Task) :
    (t.is_overdue today = true ↔
      (t.status ≠ "Completed" ∧ t.due_date.toDays < today.toDays)) ∧
    (t.due_date = today → t.is_overdue today = false) ∧
    (t.status = "Completed" → t.is_overdue today = false) ∧
    (t ∈ TaskApp.get_overdue_tasks tasks today ↔
      (t ∈ tasks ∧ t.is_overdue today = true)) := by
  refine ⟨?_, ?_, ?_, List.mem_filter⟩
  · by_cases hs : t.status = "Completed" <;>
      simp [TaskApp.Task.is_overdue, hs]
  · intro h
    by_cases hs : t.status = "Completed" <;>
      simp [TaskApp.Task.is_overdue, hs, h]
  · intro hs
    simp [TaskApp.Task.is_overdue, hs]

/-- Witness for C7: the concrete completed task is reported not overdue on
2024-06-01 although its due date 2024-05-30 has passed. -/
theorem C7_is_overdue_iff_witness :
    TaskApp.doneTask.status = "Completed" ∧
    TaskApp.doneTask.is_overdue ⟨2024, 6, 1⟩ = false :=
  ⟨rfl, (C7_is_overdue_iff TaskApp.doneTask ⟨2024, 6, 1⟩ []).2.2.1 rfl⟩

/-- C10: when no booking with the given id belongs to the requesting user —
the id does not exist or the booking is owned by someone else —
`cancel_booking` reports not-found and leaves the bookings and the rooms
exactly as they were. -/
theorem C10_cancel_missing_unchanged (db : Hotel.HotelDb)
    (user_id booking_id : Int)
    (h : ∀ b ∈ db.bookings, ¬(b.id = booking_id ∧ b.user_id = user_id)) :
    Hotel.cancel_booking db user_id booking_id
      = (Hotel.CancelResult.notFound, db) := by
  have hnone : db.bookings.find?
      (fun b => b.id == booking_id && b.user_id == user_id) = none := by
    rw [List.find?_eq_none]
    intro b hb
    simpa using h b hb
  simp [Hotel.cancel_booking, hnone]

/-- Witness for C10: booking 1 of `hotelDb1` belongs to user 7, so user 9's
cancellation reports not-found and the store is unchanged. -/
theorem C10_cancel_missing_unchanged_witness :
    Hotel.cancel_booking Hotel.hotelDb1 9 1
      = (Hotel.CancelResult.notFound, Hotel.hotelDb1) :=
  C10_cancel_missing_unchanged Hotel.hotelDb1 9 1 (by decide)

/-- Counterexample to C3 as stated: an `'in'` movement with the non-positive
amount `-3` is admitted by `add_transaction` — the outcome is ok, the item's
quantity drops from 3 to 0, and a movement row is appended — where the claim
requires a rejection with InvalidAmount and an unchanged quantity. -/
theorem C3_nonpositive_in_admitted :
    (Inventory.add_transaction Inventory.invDb1 1 "in" (-3) 2 "" "").1
      = Inventory.TransResult.ok ∧
    ((Inventory.add_transaction Inventory.invDb1 1 "in" (-3) 2 "" "").2.items.map
        Inventory.Item.quantity) = [0] ∧
    (Inventory.add_transaction Inventory.invDb1 1 "in" (-3) 2 "" "").2.movements.length
      = Inventory.invDb1.movements.length + 1 := by
  decide

/-- C3 (amended): a `recordMovement` call with direction In is always
admitted whenever the item exists, for every amount — there is no positivity
check and no InvalidAmount rejection — and it adds the amount to the item's
quantity and appends the movement row. -/
theorem C3_in_always_admitted (db : Inventory.InvDb)
    (item_id quantity unit_price : Int) (reference_no notes : String)
    (item : Inventory.Item)
    (hfind : db.items.find? (fun it => it.id == item_id) = some item) :
    Inventory.add_transaction db item_id "in" quantity unit_price reference_no notes
      = (Inventory.TransResult.ok,
         { db with
           items := db.items.map (fun it =>
             if it.id == item_id then { it with quantity := item.quantity + quantity }
             else it)
           movements := db.movements ++
             [⟨db.nextMovementId, item_id, "in", quantity, unit_price,
               quantity * unit_price, some reference_no, some notes⟩]
           nextMovementId := db.nextMovementId + 1 }) := by
  simp [Inventory.add_transaction, hfind]

/-- Witness for the amended C3 at a concrete store: an `'in'` movement of 4
against item 1 (holding 3) is admitted. -/
theorem C3_in_always_admitted_witness :
    Inventory.add_transaction Inventory.invDb1 1 "in" 4 2 "" ""
      = (Inventory.TransResult.ok,
         { Inventory.invDb1 with
           items := Inventory.invDb1.items.map (fun it =>
             if it.id == 1 then { it with quantity := Inventory.demoItem.quantity + 4 }
             else it)
           movements := Inventory.invDb1.movements ++
             [⟨Inventory.invDb1.nextMovementId, 1, "in", 4, 2, 4 * 2, some "", some ""⟩]
           nextMovementId := Inventory.invDb1.nextMovementId + 1 }) :=
  C3_in_always_admitted Inventory.invDb1 1 4 2 "" "" Inventory.demoItem (by decide)

/-- Counterexample to C5 as stated: `closedDb` holds the loan `L1` already in
status `"Returned"` with fee 5 and return date 2024-01-08, yet a second
`return_book` succeeds instead of rejecting with AlreadyClosed, overwriting
the return date and the fee and decrementing the holder's borrow count to
`-1`. -/
theorem C5_second_close_succeeds :
    (Library.return_book Library.closedDb "L1" "2024-02-02" 7).isSome = true ∧
    ((Library.return_book Library.closedDb "L1" "2024-02-02" 7).map
        (fun db => db.records.map (fun r => (r.status, r.return_date, r.late_fee))))
      = some [("Returned", some "2024-02-02", 7)] ∧
    ((Library.return_book Library.closedDb "L1" "2024-02-02" 7).map
        (fun db => db.users.map Library.Member.borrowed_books)) = some [-1] := by
  decide

/-- C5 (amended): `return_book` never checks the loan's status, so closing a
loan that is already `"Returned"` succeeds again, overwriting its return
date and late fee with the newly supplied values (fee and dates are not
immutable after the first close). -/
theorem C5_close_overwrites (db : Library.LibraryDb)
    (record_id return_date : String) (late_fee : Int)
    (rec : Library.BorrowRecord)
    (hfind : db.records.find? (fun r => r.id == record_id) = some rec)
    (_hclosed : rec.status = "Returned") :
    ∃ db2, Library.return_book db record_id return_date late_fee = some db2 ∧
      ∀ r ∈ db2.records, r.id = record_id →
        r.status = "Returned" ∧ r.return_date = some return_date ∧
        r.late_fee = late_fee := by
  unfold Library.return_book
  rw [hfind]
  refine ⟨_, rfl, ?_⟩
  intro r hr hrid
  rcases List.mem_map.mp hr with ⟨r0, _, rfl⟩
  by_cases h0 : (r0.id == record_id) = true
  · rw [if_pos h0]
    exact ⟨rfl, rfl, rfl⟩
  · rw [if_neg h0] at hrid
    exact absurd (beq_iff_eq.mpr hrid) h0

/-- Witness for the amended C5: a second close of the already-returned loan
`L1` of `closedDb` succeeds and overwrites its fee and return date. -/
theorem C5_close_overwrites_witness :
    ∃ db2, Library.return_book Library.closedDb "L1" "2024-03-01" 9 = some db2 ∧
      ∀ r ∈ db2.records, r.id = "L1" →
        r.status = "Returned" ∧ r.return_date = some "2024-03-01" ∧
        r.late_fee = 9 :=
  C5_close_overwrites Library.closedDb "L1" "2024-03-01" 9 Library.closedRec
    (by decide) (by decide)

/-- Counterexample to C8 as stated: with six low-stock items in the store
(`sixLowItems`, quantities 0..5, all at or below their minimum of 10), the
dashboard listing omits the sixth — its `LIMIT 5` contradicts "every such
resource is included". -/
theorem C8_sixth_low_item_omitted :
    Inventory.isLowStock Inventory.lowItemF = true ∧
    Inventory.lowItemF ∈ Inventory.sixLowItems ∧
    Inventory.lowItemF ∉ Inventory.low_stock_items Inventory.sixLowItems := by
  decide

/-- C8 (amended): the dashboard's low-stock listing contains only low-stock
items, is ordered by quantity ascending, and is truncated to the first 5 —
so it is exactly the low-stock items (each one included) whenever at most 5
items are low on stock. -/
theorem C8_low_stock_sorted_take (items : List Inventory.Item) :
    (∀ it ∈ Inventory.low_stock_items items, Inventory.isLowStock it = true) ∧
    (Inventory.low_stock_items items).Pairwise (fun a b => a.quantity ≤ b.quantity) ∧
    ((items.filter Inventory.isLowStock).length ≤ 5 →
      ∀ it ∈ items, Inventory.isLowStock it = true →
        it ∈ Inventory.low_stock_items items) := by
  have hperm := List.perm_insertionSort
    (fun a b : Inventory.Item => a.quantity ≤ b.quantity)
    (items.filter Inventory.isLowStock)
  refine ⟨?_, ?_, ?_⟩
  · intro it hit
    have h1 := List.mem_of_mem_take hit
    have h2 := hperm.mem_iff.mp h1
    exact (List.mem_filter.mp h2).2
  · haveI : IsTotal Inventory.Item (fun a b => a.quantity ≤ b.quantity) :=
      ⟨fun a b => le_total a.quantity b.quantity⟩
    haveI : IsTrans Inventory.Item (fun a b => a.quantity ≤ b.quantity) :=
      ⟨fun _ _ _ hab hbc => le_trans hab hbc⟩
    exact List.Pairwise.sublist (List.take_sublist 5 _)
      (List.sorted_insertionSort _ (items.filter Inventory.isLowStock))
  · intro hlen it hit hlow
    have hmem : it ∈ items.filter Inventory.isLowStock :=
      List.mem_filter.mpr ⟨hit, hlow⟩
    have hmem2 := hperm.mem_iff.mpr hmem
    have hlen2 : ((items.filter Inventory.isLowStock).insertionSort
        (fun a b => a.quantity ≤ b.quantity)).length ≤ 5 := by
      rw [hperm.length_eq]; exact hlen
    unfold Inventory.low_stock_items
    rw [List.take_of_length_le hlen2]
    exact hmem2

/-- Witness for the amended C8: a store holding the single low-stock item
`lowItemA` lists it. -/
theorem C8_low_stock_sorted_take_witness :
    (Inventory.lowList1.filter Inventory.isLowStock).length ≤ 5 ∧
    Inventory.lowItemA ∈ Inventory.low_stock_items Inventory.lowList1 :=
  ⟨by decide,
   (C8_low_stock_sorted_take Inventory.lowList1).2.2 (by decide)
     Inventory.lowItemA (by decide) (by decide)⟩

/-- C9: `edit_item` never touches the movements ledger or its counter, and
for every item it preserves id, quantity, unit price and creation timestamp —
only the descriptive fields (name, description, category, minimum stock) and
`updated_at` may change. -/
theorem C9_edit_item_frame (db : Inventory.InvDb) (id : Int)
    (name description category : String) (minimum_stock : Int) (now : String) :
    (Inventory.edit_item db id name description category minimum_stock now).movements
      = db.movements ∧
    (Inventory.edit_item db id name description category minimum_stock now).nextMovementId
      = db.nextMovementId ∧
    (Inventory.edit_item db id name description category minimum_stock now).items.map
        Inventory.itemFrame
      = db.items.map Inventory.itemFrame := by
  refine ⟨rfl, rfl, ?_⟩
  simp only [Inventory.edit_item, List.map_map]
  apply List.map_congr_left
  intro it _
  by_cases h : it.id = id <;> simp [Function.comp, Inventory.itemFrame, h]

/-- Appending one movement changes the in-sum of an item by that movement's
amount exactly when the movement is an `'in'` against that item. -/
theorem inSum_append (ms : List Inventory.Movement) (t : Inventory.Movement)
    (iid : Int) :
    Inventory.inSum (ms ++ [t]) iid
      = Inventory.inSum ms iid
        + (if t.item_id = iid ∧ t.type = "in" then t.quantity else 0) := by
  simp only [Inventory.inSum, List.filter_append, List.filter_cons,
    List.filter_nil, Bool.and_eq_true, beq_iff_eq, List.map_append,
    List.sum_append]
  by_cases h1 : t.item_id = iid <;> by_cases h2 : t.type = "in" <;>
    simp [h1, h2]

/-- Appending one movement changes the out-sum of an item by that movement's
amount exactly when the movement is an `'out'` against that item. -/
theorem outSum_append (ms : List Inventory.Movement) (t : Inventory.Movement)
    (iid : Int) :
    Inventory.outSum (ms ++ [t]) iid
      = Inventory.outSum ms iid
        + (if t.item_id = iid ∧ t.type = "out" then t.quantity else 0) := by
  simp only [Inventory.outSum, List.filter_append, List.filter_cons,
    List.filter_nil, Bool.and_eq_true, beq_iff_eq, List.map_append,
    List.sum_append]
  by_cases h1 : t.item_id = iid <;> by_cases h2 : t.type = "out" <;>
    simp [h1, h2]

/-- An item referenced by no movement has in-sum zero. -/
theorem inSum_eq_zero (ms : List Inventory.Movement) (iid : Int)
    (h : ∀ t ∈ ms, t.item_id ≠ iid) : Inventory.inSum ms iid = 0 := by
  have hfil : ms.filter (fun m => m.item_id == iid && m.type == "in") = [] := by
    rw [List.filter_eq_nil_iff]
    intro a ha
    simp only [Bool.and_eq_true, beq_iff_eq, not_and]
    intro ha2
    exact absurd ha2 (h a ha)
  simp [Inventory.inSum, hfil]

/-- An item referenced by no movement has out-sum zero. -/
theorem outSum_eq_zero (ms : List Inventory.Movement) (iid : Int)
    (h : ∀ t ∈ ms, t.item_id ≠ iid) : Inventory.outSum ms iid = 0 := by
  have hfil : ms.filter (fun m => m.item_id == iid && m.type == "out") = [] := by
    rw [List.filter_eq_nil_iff]
    intro a ha
    simp only [Bool.and_eq_true, beq_iff_eq, not_and]
    intro ha2
    exact absurd ha2 (h a ha)
  simp [Inventory.outSum, hfil]

/-- One committed action preserves both the ledger/live-state agreement and
the freshness of the AUTOINCREMENT ids, provided that if the action is an
`add_item` its submitted initial quantity is non-negative. -/
theorem step_preserves (db : Inventory.InvDb) (op : Inventory.Op)
    (hg : Inventory.nonNegativeInit op = true)
    (h1 : Inventory.ledgerMatches db) (h2 : Inventory.idsFresh db) :
    Inventory.ledgerMatches (Inventory.step db op) ∧
    Inventory.idsFresh (Inventory.step db op) := by
  obtain ⟨h2i, h2m⟩ := h2
  cases op with
  | addItem name description quantity unit_price category minimum_stock now =>
    have hq : 0 ≤ quantity := by
      simpa [Inventory.nonNegativeInit] using hg
    by_cases hpos : quantity > 0
    · simp only [Inventory.step, Inventory.add_item, if_pos hpos]
      refine ⟨?_, ?_, ?_⟩
      · intro it hit
        dsimp only at hit ⊢
        rcases List.mem_append.mp hit with hin | hnew
        · have hlt := h2i it hin
          rw [inSum_append, outSum_append]
          dsimp only
          have hc1 : ¬(db.nextItemId = it.id ∧ ("in" : String) = "in") := by
            intro hcon; have := hcon.1; omega
          have hc2 : ¬(db.nextItemId = it.id ∧ ("in" : String) = "out") := by
            intro hcon; have := hcon.1; omega
          rw [if_neg hc1, if_neg hc2]
          have := h1 it hin
          omega
        · have heq : it = ⟨db.nextItemId, name, description, quantity, unit_price,
              category, minimum_stock, now, now⟩ := by simpa using hnew
          subst heq
          rw [inSum_append, outSum_append]
          dsimp only
          have hc3 : ¬(db.nextItemId = db.nextItemId ∧ ("in" : String) = "out") := by
            intro hcon; exact absurd hcon.2 (by decide)
          rw [if_pos ⟨rfl, rfl⟩, if_neg hc3]
          rw [inSum_eq_zero db.movements db.nextItemId
              (fun t ht => by have := h2m t ht; omega),
            outSum_eq_zero db.movements db.nextItemId
              (fun t ht => by have := h2m t ht; omega)]
          omega
      · intro it hit
        dsimp only at hit ⊢
        rcases List.mem_append.mp hit with hin | hnew
        · have := h2i it hin; omega
        · have heq : it = ⟨db.nextItemId, name, description, quantity, unit_price,
              category, minimum_stock, now, now⟩ := by simpa using hnew
          subst heq; dsimp only; omega
      · intro m hm
        dsimp only at hm ⊢
        rcases List.mem_append.mp hm with hin | hnew
        · have := h2m m hin; omega
        · have heq : m = ⟨db.nextMovementId, db.nextItemId, "in", quantity,
              unit_price, quantity * unit_price, none, some "Initial stock"⟩ := by
            simpa using hnew
          subst heq; dsimp only; omega
    · have hz : quantity = 0 := by omega
      simp only [Inventory.step, Inventory.add_item, if_neg hpos]
      refine ⟨?_, ?_, ?_⟩
      · intro it hit
        dsimp only at hit ⊢
        rcases List.mem_append.mp hit with hin | hnew
        · exact h1 it hin
        · have heq : it = ⟨db.nextItemId, name, description, quantity, unit_price,
              category, minimum_stock, now, now⟩ := by simpa using hnew
          subst heq
          dsimp only
          rw [inSum_eq_zero db.movements db.nextItemId
              (fun t ht => by have := h2m t ht; omega),
            outSum_eq_zero db.movements db.nextItemId
              (fun t ht => by have := h2m t ht; omega)]
          omega
      · intro it hit
        dsimp only at hit ⊢
        rcases List.mem_append.mp hit with hin | hnew
        · have := h2i it hin; omega
        · have heq : it = ⟨db.nextItemId, name, description, quantity, unit_price,
              category, minimum_stock, now, now⟩ := by simpa using hnew
          subst heq; dsimp only; omega
      · intro m hm
        dsimp only at hm ⊢
        have := h2m m hm; omega
  | addMovement item_id type quantity unit_price reference_no notes =>
    rcases hfind : db.items.find? (fun it => it.id == item_id) with _ | item
    · simp only [Inventory.step, Inventory.add_transaction, hfind]
      exact ⟨h1, h2i, h2m⟩
    · have hmem := List.mem_of_find?_eq_some hfind
      have hid : item.id = item_id := by simpa using List.find?_some hfind
      by_cases hrej : type = "out" ∧ quantity > item.quantity
      · simp only [Inventory.step, Inventory.add_transaction, hfind, if_pos hrej]
        exact ⟨h1, h2i, h2m⟩
      · by_cases hbad : type ≠ "in" ∧ type ≠ "out"
        · simp only [Inventory.step, Inventory.add_transaction, hfind,
            if_neg hrej, if_pos hbad]
          exact ⟨h1, h2i, h2m⟩
        · have htype : type = "in" ∨ type = "out" := by tauto
          simp only [Inventory.step, Inventory.add_transaction, hfind,
            if_neg hrej, if_neg hbad]
          refine ⟨?_, ?_, ?_⟩
          · intro it' hit'
            dsimp only at hit' ⊢
            rcases List.mem_map.mp hit' with ⟨it, hitmem, rfl⟩
            have hq1 := h1 it hitmem
            have hq2 := h1 item hmem
            rw [hid] at hq2
            by_cases hidm : it.id = item_id
            · rw [if_pos (beq_iff_eq.mpr hidm)]
              rw [inSum_append, outSum_append]
              dsimp only
              rw [hidm]
              rcases htype with ht | ht <;> subst ht <;> simp <;> omega
            · rw [if_neg (by simpa using hidm)]
              rw [inSum_append, outSum_append]
              dsimp only
              have hc6 : ¬(item_id = it.id ∧ type = "in") :=
                fun hcon => hidm hcon.1.symm
              have hc7 : ¬(item_id = it.id ∧ type = "out") :=
                fun hcon => hidm hcon.1.symm
              rw [if_neg hc6, if_neg hc7]
              omega
          · intro it' hit'
            dsimp only at hit' ⊢
            rcases List.mem_map.mp hit' with ⟨it, hitmem, rfl⟩
            have := h2i it hitmem
            by_cases hidm : it.id = item_id
            · rw [if_pos (beq_iff_eq.mpr hidm)]; dsimp only; omega
            · rw [if_neg (by simpa using hidm)]; omega
          · intro m hm
            dsimp only at hm ⊢
            rcases List.mem_append.mp hm with hin | hnew
            · have := h2m m hin; omega
            · have heq : m = ⟨db.nextMovementId, item_id, type, quantity,
                  unit_price, quantity * unit_price, some reference_no,
                  some notes⟩ := by simpa using hnew
              subst heq
              dsimp only
              have := h2i item hmem
              omega
  | editItem id name description category minimum_stock now =>
    simp only [Inventory.step, Inventory.edit_item]
    refine ⟨?_, ?_, h2m⟩
    · intro it' hit'
      dsimp only at hit' ⊢
      rcases List.mem_map.mp hit' with ⟨it, hitmem, rfl⟩
      have hq1 := h1 it hitmem
      by_cases hidm : it.id = id
      · rw [if_pos (beq_iff_eq.mpr hidm)]; dsimp only; omega
      · rw [if_neg (by simpa using hidm)]; omega
    · intro it' hit'
      dsimp only at hit' ⊢
      rcases List.mem_map.mp hit' with ⟨it, hitmem, rfl⟩
      have := h2i it hitmem
      by_cases hidm : it.id = id
      · rw [if_pos (beq_iff_eq.mpr hidm)]; dsimp only; omega
      · rw [if_neg (by simpa using hidm)]; omega

/-- Running any sequence of benign actions from a store satisfying the
ledger and freshness invariants lands in a store satisfying them. -/
theorem foldl_invariant : ∀ (ops : List Inventory.Op) (db : Inventory.InvDb),
    (∀ op ∈ ops, Inventory.nonNegativeInit op = true) →
    Inventory.ledgerMatches db → Inventory.idsFresh db →
    Inventory.ledgerMatches (List.foldl Inventory.step db ops) ∧
    Inventory.idsFresh (List.foldl Inventory.step db ops)
  | [], _, _, h1, h2 => ⟨h1, h2⟩
  | op :: ops, db, hg, h1, h2 => by
    have hstep := step_preserves db op (hg op (List.mem_cons_self op ops)) h1 h2
    exact foldl_invariant ops (Inventory.step db op)
      (fun o ho => hg o (List.mem_cons_of_mem op ho)) hstep.1 hstep.2

/-- C1 (amended): for every committed history in which each `add_item`
carries a non-negative initial quantity, every item's stored quantity equals
the sum of the `'in'` amounts minus the sum of the `'out'` amounts of the
movements committed against it.  The history ranges over arbitrary action
sequences (hence over every prefix of any history), so the equation holds at
every point in time. -/
theorem C1_quantity_eq_ledger_sums (ops : List Inventory.Op)
    (hg : ∀ op ∈ ops, Inventory.nonNegativeInit op = true) :
    ∀ it ∈ (Inventory.run ops).items,
      it.quantity = Inventory.inSum (Inventory.run ops).movements it.id
        - Inventory.outSum (Inventory.run ops).movements it.id := by
  have hbase1 : Inventory.ledgerMatches Inventory.emptyDb := by
    intro it hit
    simp [Inventory.emptyDb] at hit
  have hbase2 : Inventory.idsFresh Inventory.emptyDb := by
    refine ⟨?_, ?_⟩ <;> intro x hx <;> simp [Inventory.emptyDb] at hx
  exact (foldl_invariant ops Inventory.emptyDb hg hbase1 hbase2).1

/-- Witness for the amended C1: after the concrete history `demoOps`
(add item with stock 5, ship 2 out) the surviving item holds quantity 3,
which is its in-sum 5 minus its out-sum 2. -/
theorem C1_quantity_eq_ledger_sums_witness :
    Inventory.demoItem.quantity
      = Inventory.inSum (Inventory.run Inventory.demoOps).movements
          Inventory.demoItem.id
        - Inventory.outSum (Inventory.run Inventory.demoOps).movements
          Inventory.demoItem.id :=
  C1_quantity_eq_ledger_sums Inventory.demoOps (by decide) Inventory.demoItem
    (by decide)

/-- Counterexample to C1 as stated: `add_item` parses the quantity field with
`int(...)` and records the initial-stock movement only when it is positive,
so adding an item with quantity `-1` leaves a store whose item carries
quantity `-1` while the net ledger sum against it is `0`. -/
theorem C1_negative_initial_breaks_ledger :
    Inventory.negItem ∈ (Inventory.run Inventory.negOps).items ∧
    Inventory.negItem.quantity ≠
      Inventory.inSum (Inventory.run Inventory.negOps).movements
          Inventory.negItem.id
        - Inventory.outSum (Inventory.run Inventory.negOps).movements
          Inventory.negItem.id := by
  decide
